import Mathlib

/-!
Verification of the pytest-pw-reporter instrumentation and event-reporting
subsystem (src/py/pytest_pw_reporter).  The Python source is shallowly
embedded: Python values become an inductive `PyValue`, the JSON reporter
becomes explicit state passing over `ReporterState`, the wrapped-method
machinery (`wrap_sync_method` / `wrap_async_method`) becomes pure functions
that return the call result together with the updated reporter state, and
the monkey-patching installer (`patch_playwright` and friends) becomes
transformations of association-list models of the patched classes.
Clock reads (`time.time()` / `datetime.now()`) are modelled by explicit
rational-number parameters, and exceptions by `Except` with a `PyExc` type.
-/

namespace PwReporter

/-- Model of a Python runtime value as it can appear in reporter payloads and
as an argument to an instrumented call.  `vObj` models an arbitrary Python
object: an attribute dictionary plus its `str()` display string. -/
inductive PyValue where
  | vNone
  | vBool (b : Bool)
  | vInt (n : Int)
  | vNum (q : ℚ)
  | vStr (s : String)
  | vList (l : List PyValue)
  | vDict (l : List (String × PyValue))
  | vObj (attrs : List (String × PyValue)) (srepr : String)

/-- Printing of a rational, used for the numeric leaves of payloads. -/
def ratStr (q : ℚ) : String :=
  if q.den = 1 then toString q.num else toString q.num ++ "/" ++ toString q.den

mutual

/-- Model of Python `repr()` on embedded values (strings are quoted, the
other leaves print as themselves, containers print their elements). -/
def reprOf : PyValue → String
  | .vNone => "None"
  | .vBool b => if b then "True" else "False"
  | .vInt n => toString n
  | .vNum q => ratStr q
  | .vStr s => "\x27" ++ s ++ "\x27"
  | .vList l => "[" ++ commaSep l ++ "]"
  | .vDict l => "\x7b" ++ commaSepD l ++ "\x7d"
  | .vObj _ r => r

/-- Comma-separated rendering of list elements. -/
def commaSep : List PyValue → String
  | [] => ""
  | [v] => reprOf v
  | v :: vs => reprOf v ++ ", " ++ commaSep vs

/-- Comma-separated rendering of dict items. -/
def commaSepD : List (String × PyValue) → String
  | [] => ""
  | [(k, v)] => "\x27" ++ k ++ "\x27: " ++ reprOf v
  | (k, v) :: l => "\x27" ++ k ++ "\x27: " ++ reprOf v ++ ", " ++ commaSepD l

end

/-- Model of Python `str()`: identity on strings, the display string of an
object, and `repr`-like rendering everywhere else (where the two agree). -/
def strOf : PyValue → String
  | .vStr s => s
  | .vObj _ r => r
  | v => reprOf v

/-- Model of a raised Python exception: a `TypeError` (raised by argument
binding in a title lambda), an `ImportError` (raised by a missing playwright
module), or any other exception with its type name and message. -/
inductive PyExc where
  | typeError (msg : String)
  | importError
  | exc (ty msg : String)
deriving DecidableEq

/-- Model of Python `str(e)` on an exception: its message. -/
def excStr : PyExc → String
  | .typeError m => m
  | .importError => ""
  | .exc _ m => m

/-! ## JSON serialization (reporter.py, `json.dumps(payload, default=str)`)

`jsonVal dflt v` models `json.dumps` applied to `v`: when `dflt` is `true`
the call carries `default=str`, so a bare object is degraded to its `str()`
form; when `dflt` is `false` a bare object makes the dump raise `TypeError`,
which the model signals with `Except.error`. -/

/-- JSON string quoting (escaping is immaterial to the verified claims). -/
def quoteStr (s : String) : String := "\"" ++ s ++ "\""

mutual

/-- Model of `json.dumps` on one value; see the section comment. -/
def jsonVal (dflt : Bool) : PyValue → Except Unit String
  | .vNone => .ok "null"
  | .vBool b => .ok (if b then "true" else "false")
  | .vInt n => .ok (toString n)
  | .vNum q => .ok (ratStr q)
  | .vStr s => .ok (quoteStr s)
  | .vList l =>
    match jsonList dflt l with
    | .ok s => .ok ("[" ++ s ++ "]")
    | .error e => .error e
  | .vDict l =>
    match jsonDict dflt l with
    | .ok s => .ok ("\x7b" ++ s ++ "\x7d")
    | .error e => .error e
  | .vObj _ r => if dflt then .ok (quoteStr r) else .error ()

/-- `json.dumps` on the elements of a list. -/
def jsonList (dflt : Bool) : List PyValue → Except Unit String
  | [] => .ok ""
  | [v] => jsonVal dflt v
  | v :: vs =>
    match jsonVal dflt v, jsonList dflt vs with
    | .ok s, .ok t => .ok (s ++ "," ++ t)
    | .error e, _ => .error e
    | _, .error e => .error e

/-- `json.dumps` on the items of a dict. -/
def jsonDict (dflt : Bool) : List (String × PyValue) → Except Unit String
  | [] => .ok ""
  | [(k, v)] =>
    match jsonVal dflt v with
    | .ok s => .ok (quoteStr k ++ ":" ++ s)
    | .error e => .error e
  | (k, v) :: l =>
    match jsonVal dflt v, jsonDict dflt l with
    | .ok s, .ok t => .ok (quoteStr k ++ ":" ++ s ++ "," ++ t)
    | .error e, _ => .error e
    | _, .error e => .error e

end

/-! ## Event sink (reporter.py, class JSONReporter)

The reporter keeps the list of emitted payload dicts (`self.events`) and the
serialized lines written to the output channel.  `clock` models the value
`datetime.now()` would return at this instant; the claims under verification
never depend on its progression, only on the stamp being taken at emission
time, so it is carried unchanged through the state. -/

structure ReporterState where
  clock : Nat
  events : List (List (String × PyValue))
  output : List String

/-- Rendering of the timestamp stamp (`datetime.now().isoformat()`),
abstracted to the clock model. -/
def tsString (ts : Nat) : String := toString ts

/-- Python `payload.update(data)` on string-keyed dicts: existing keys are
overwritten in place, new keys are appended in the order of `data`. -/
def dictUpdate (base upd : List (String × PyValue)) : List (String × PyValue) :=
  (base.map fun p =>
    match upd.lookup p.1 with
    | some v => (p.1, v)
    | Option.none => p)
  ++ upd.filter fun q => (base.lookup q.1).isNone

/-- The payload built by `JSONReporter.log_event`: the `event` and
`timestamp` entries, updated with the caller data when it is non-empty
(`if data:` in the source treats an absent or empty dict alike). -/
def mkPayload (ev : String) (data : Option (List (String × PyValue))) (ts : Nat) :
    List (String × PyValue) :=
  let payload := [("event", PyValue.vStr ev), ("timestamp", PyValue.vStr (tsString ts))]
  match data with
  | Option.none => payload
  | some d => if d.isEmpty then payload else dictUpdate payload d

/-- The serialized line `json.dumps(payload, indent=2, default=str)` writes
(indentation whitespace is immaterial and not modelled); the error branch is
provably dead because serialization with `default=str` is total. -/
def lineOf (payload : List (String × PyValue)) : String :=
  match jsonVal true (PyValue.vDict payload) with
  | .ok s => s
  | .error _ => ""

/-- `JSONReporter.log_event`: stamp the time, merge in the data, append the
record to the in-memory history and write one serialized line.  -/
def log_event (ev : String) (data : Option (List (String × PyValue)))
    (st : ReporterState) : ReporterState :=
  let payload := mkPayload ev data st.clock
  { st with events := st.events ++ [payload], output := st.output ++ [lineOf payload] }

/-- None-or-string fields of the wire format (`str | None` in the source). -/
def optToPy : Option String → PyValue
  | Option.none => PyValue.vNone
  | some s => PyValue.vStr s

/-- `JSONReporter.on_step_begin`. -/
def on_step_begin (title category : String) (st : ReporterState) : ReporterState :=
  log_event "onStepBegin"
    (some [("step", PyValue.vDict [("title", PyValue.vStr title),
                                   ("category", PyValue.vStr category)])]) st

/-- `JSONReporter.on_step_end`. -/
def on_step_end (title category : String) (duration : ℚ) (error : Option String)
    (st : ReporterState) : ReporterState :=
  log_event "onStepEnd"
    (some [("step", PyValue.vDict [("title", PyValue.vStr title),
                                   ("category", PyValue.vStr category),
                                   ("duration", PyValue.vNum duration),
                                   ("error", optToPy error)])]) st

/-! Expected wire records, written out field by field so the theorems below
exhibit the exact shape each emission produces. -/

/-- The record `on_step_begin` emits. -/
def stepBeginRecord (ts : Nat) (title category : String) : List (String × PyValue) :=
  [("event", PyValue.vStr "onStepBegin"), ("timestamp", PyValue.vStr (tsString ts)),
   ("step", PyValue.vDict [("title", PyValue.vStr title),
                           ("category", PyValue.vStr category)])]

/-- The record `on_step_end` emits. -/
def stepEndRecord (ts : Nat) (title category : String) (duration : ℚ)
    (error : Option String) : List (String × PyValue) :=
  [("event", PyValue.vStr "onStepEnd"), ("timestamp", PyValue.vStr (tsString ts)),
   ("step", PyValue.vDict [("title", PyValue.vStr title),
                           ("category", PyValue.vStr category),
                           ("duration", PyValue.vNum duration),
                           ("error", optToPy error)])]

/-- Field accessor on the `step` sub-dict of a record. -/
def stepLookup (r : List (String × PyValue)) (k : String) : Option PyValue :=
  match r.lookup "step" with
  | some (PyValue.vDict d) => d.lookup k
  | _ => Option.none

/-- The key list of the `step` sub-dict of a record. -/
def stepKeys (r : List (String × PyValue)) : List String :=
  match r.lookup "step" with
  | some (PyValue.vDict d) => d.map Prod.fst
  | _ => []

/-! ## Title rules (instrumentation.py, the lambda tables)

Each title lambda in the source has named parameters (always starting with
`self`, possibly with defaults) followed by `**kw`.  `bindParams` models
CPython argument binding for such a lambda: positional arguments bind the
named parameters in order, surplus positional arguments raise `TypeError`,
a keyword duplicating a positionally bound parameter raises `TypeError`,
missing parameters fall back to the keyword arguments, then to the default,
and otherwise raise `TypeError`; surplus keywords are absorbed by `**kw`. -/

structure TitleRule where
  params : List (String × Option PyValue)
  fmt : List PyValue → String

/-- CPython argument binding for a title lambda (see section comment). -/
def bindParams : List (String × Option PyValue) → List PyValue →
    List (String × PyValue) → Except PyExc (List PyValue)
  | [], [], _ => .ok []
  | [], _ :: _, _ => .error (.typeError "too many positional arguments")
  | (n, _) :: ps, a :: args, kw =>
    if (kw.lookup n).isSome then
      .error (.typeError ("multiple values for argument " ++ n))
    else
      match bindParams ps args kw with
      | .ok vs => .ok (a :: vs)
      | .error e => .error e
  | (n, dflt) :: ps, [], kw =>
    match kw.lookup n with
    | some v =>
      (match bindParams ps [] kw with
       | .ok vs => .ok (v :: vs)
       | .error e => .error e)
    | Option.none =>
      match dflt with
      | some v =>
        (match bindParams ps [] kw with
         | .ok vs => .ok (v :: vs)
         | .error e => .error e)
      | Option.none => .error (.typeError ("missing a required argument: " ++ n))

/-- Evaluating `title_fn(*args, **kwargs)`: bind the arguments, then format.
The format body is an f-string over `str`/`repr` of the bound values and
cannot itself raise; only the binding step can. -/
def applyRule (r : TitleRule) (args : List PyValue)
    (kwargs : List (String × PyValue)) : Except PyExc String :=
  match bindParams r.params args kwargs with
  | .ok vs => .ok (r.fmt vs)
  | .error e => .error e

/-- Bound-argument access inside a format body (only evaluated after a
successful binding, which supplies exactly one value per parameter). -/
def arg (vs : List PyValue) (i : Nat) : PyValue := vs.getD i PyValue.vNone

/-- Attribute access: only object values carry attributes. -/
def pyGetattr : PyValue → String → Option PyValue
  | .vObj attrs _, n => attrs.lookup n
  | _, _ => Option.none

/-- The loop body of `get_locator_desc` in `patch_assertions_class`: probe
the candidate attributes in order, skipping those that are absent or bound
to `None`, and return the `str()` of the first hit. -/
def firstAttrDesc (impl : PyValue) : List String → Option String
  | [] => Option.none
  | a :: rest =>
    match pyGetattr impl a with
    | some PyValue.vNone => firstAttrDesc impl rest
    | some loc => some (strOf loc)
    | Option.none => firstAttrDesc impl rest

/-- `get_locator_desc` from `patch_assertions_class`: unwrap `_impl_obj`
when present, probe `_actual_locator`, `_locator`, `actual` in order, and
fall back to the placeholder string `"locator"`. -/
def get_locator_desc (a : PyValue) : String :=
  let impl := (pyGetattr a "_impl_obj").getD a
  (firstAttrDesc impl ["_actual_locator", "_locator", "actual"]).getD "locator"

/-! ### The operation descriptor tables (instrumentation.py lines 77-213)

One entry per `(name, lambda)` pair of the source, with the lambda split
into its parameter list (with defaults) and its f-string body. -/

/-- The title lambda of `page.goto`. -/
def gotoRule : TitleRule :=
  ⟨[("self", Option.none), ("url", Option.none)],
   fun vs => "page.goto(" ++ strOf (arg vs 1) ++ ")"⟩

/-- `methods_navigation` of `patch_page_class`. -/
def pageMethodsNavigation : List (String × TitleRule) := [
  ("goto", gotoRule),
  ("reload", ⟨[("self", Option.none)], fun _ => "page.reload()"⟩),
  ("go_back", ⟨[("self", Option.none)], fun _ => "page.go_back()"⟩),
  ("go_forward", ⟨[("self", Option.none)], fun _ => "page.go_forward()"⟩)]

/-- `methods_action` of `patch_page_class`. -/
def pageMethodsAction : List (String × TitleRule) := [
  ("click", ⟨[("self", Option.none), ("selector", Option.none)],
    fun vs => "page.click(" ++ strOf (arg vs 1) ++ ")"⟩),
  ("dblclick", ⟨[("self", Option.none), ("selector", Option.none)],
    fun vs => "page.dblclick(" ++ strOf (arg vs 1) ++ ")"⟩),
  ("fill", ⟨[("self", Option.none), ("selector", Option.none), ("value", Option.none)],
    fun vs => "page.fill(" ++ strOf (arg vs 1) ++ ", " ++ reprOf (arg vs 2) ++ ")"⟩),
  ("type", ⟨[("self", Option.none), ("selector", Option.none), ("text", Option.none)],
    fun vs => "page.type(" ++ strOf (arg vs 1) ++ ", " ++ reprOf (arg vs 2) ++ ")"⟩),
  ("press", ⟨[("self", Option.none), ("selector", Option.none), ("key", Option.none)],
    fun vs => "page.press(" ++ strOf (arg vs 1) ++ ", " ++ strOf (arg vs 2) ++ ")"⟩),
  ("check", ⟨[("self", Option.none), ("selector", Option.none)],
    fun vs => "page.check(" ++ strOf (arg vs 1) ++ ")"⟩),
  ("uncheck", ⟨[("self", Option.none), ("selector", Option.none)],
    fun vs => "page.uncheck(" ++ strOf (arg vs 1) ++ ")"⟩),
  ("select_option", ⟨[("self", Option.none), ("selector", Option.none)],
    fun vs => "page.select_option(" ++ strOf (arg vs 1) ++ ")"⟩),
  ("hover", ⟨[("self", Option.none), ("selector", Option.none)],
    fun vs => "page.hover(" ++ strOf (arg vs 1) ++ ")"⟩),
  ("focus", ⟨[("self", Option.none), ("selector", Option.none)],
    fun vs => "page.focus(" ++ strOf (arg vs 1) ++ ")"⟩),
  ("drag_and_drop", ⟨[("self", Option.none), ("source", Option.none), ("target", Option.none)],
    fun vs => "page.drag_and_drop(" ++ strOf (arg vs 1) ++ ", " ++ strOf (arg vs 2) ++ ")"⟩),
  ("screenshot", ⟨[("self", Option.none)], fun _ => "page.screenshot()"⟩),
  ("pdf", ⟨[("self", Option.none)], fun _ => "page.pdf()"⟩),
  ("set_input_files", ⟨[("self", Option.none), ("selector", Option.none), ("files", Option.none)],
    fun vs => "page.set_input_files(" ++ strOf (arg vs 1) ++ ", ...)"⟩)]

/-- `methods_wait` of `patch_page_class`. -/
def pageMethodsWait : List (String × TitleRule) := [
  ("wait_for_selector", ⟨[("self", Option.none), ("selector", Option.none)],
    fun vs => "page.wait_for_selector(" ++ strOf (arg vs 1) ++ ")"⟩),
  ("wait_for_load_state", ⟨[("self", Option.none), ("state", some (PyValue.vStr "load"))],
    fun vs => "page.wait_for_load_state(" ++ strOf (arg vs 1) ++ ")"⟩),
  ("wait_for_url", ⟨[("self", Option.none), ("url", Option.none)],
    fun vs => "page.wait_for_url(" ++ strOf (arg vs 1) ++ ")"⟩),
  ("wait_for_timeout", ⟨[("self", Option.none), ("timeout", Option.none)],
    fun vs => "page.wait_for_timeout(" ++ strOf (arg vs 1) ++ ")"⟩),
  ("wait_for_function", ⟨[("self", Option.none), ("expression", Option.none)],
    fun _ => "page.wait_for_function(...)"⟩)]

/-- A locator title prefix, `locator({str(self)})`, from `get_locator_desc`
of `patch_locator_class` (which is plain `str`). -/
def locPrefix (vs : List PyValue) : String := "locator(" ++ strOf (arg vs 0) ++ ")"

/-- `methods_action` of `patch_locator_class`. -/
def locatorMethodsAction : List (String × TitleRule) := [
  ("click", ⟨[("self", Option.none)], fun vs => locPrefix vs ++ ".click()"⟩),
  ("dblclick", ⟨[("self", Option.none)], fun vs => locPrefix vs ++ ".dblclick()"⟩),
  ("fill", ⟨[("self", Option.none), ("value", Option.none)],
    fun vs => locPrefix vs ++ ".fill(" ++ reprOf (arg vs 1) ++ ")"⟩),
  ("type", ⟨[("self", Option.none), ("text", Option.none)],
    fun vs => locPrefix vs ++ ".type(" ++ reprOf (arg vs 1) ++ ")"⟩),
  ("press", ⟨[("self", Option.none), ("key", Option.none)],
    fun vs => locPrefix vs ++ ".press(" ++ strOf (arg vs 1) ++ ")"⟩),
  ("check", ⟨[("self", Option.none)], fun vs => locPrefix vs ++ ".check()"⟩),
  ("uncheck", ⟨[("self", Option.none)], fun vs => locPrefix vs ++ ".uncheck()"⟩),
  ("select_option", ⟨[("self", Option.none)], fun vs => locPrefix vs ++ ".select_option()"⟩),
  ("hover", ⟨[("self", Option.none)], fun vs => locPrefix vs ++ ".hover()"⟩),
  ("focus", ⟨[("self", Option.none)], fun vs => locPrefix vs ++ ".focus()"⟩),
  ("scroll_into_view_if_needed", ⟨[("self", Option.none)],
    fun vs => locPrefix vs ++ ".scroll_into_view_if_needed()"⟩),
  ("screenshot", ⟨[("self", Option.none)], fun vs => locPrefix vs ++ ".screenshot()"⟩),
  ("set_input_files", ⟨[("self", Option.none), ("files", Option.none)],
    fun vs => locPrefix vs ++ ".set_input_files(...)"⟩),
  ("select_text", ⟨[("self", Option.none)], fun vs => locPrefix vs ++ ".select_text()"⟩),
  ("clear", ⟨[("self", Option.none)], fun vs => locPrefix vs ++ ".clear()"⟩)]

/-- `methods_wait` of `patch_locator_class`. -/
def locatorMethodsWait : List (String × TitleRule) := [
  ("wait_for", ⟨[("self", Option.none)], fun vs => locPrefix vs ++ ".wait_for()"⟩)]

/-- An assertion title prefix, `expect({get_locator_desc(self)})`. -/
def expectPrefix (vs : List PyValue) : String :=
  "expect(" ++ get_locator_desc (arg vs 0) ++ ")"

/-- `methods` of `patch_assertions_class`. -/
def assertionMethods : List (String × TitleRule) := [
  ("to_be_visible", ⟨[("self", Option.none)], fun vs => expectPrefix vs ++ ".to_be_visible()"⟩),
  ("to_be_hidden", ⟨[("self", Option.none)], fun vs => expectPrefix vs ++ ".to_be_hidden()"⟩),
  ("to_be_enabled", ⟨[("self", Option.none)], fun vs => expectPrefix vs ++ ".to_be_enabled()"⟩),
  ("to_be_disabled", ⟨[("self", Option.none)], fun vs => expectPrefix vs ++ ".to_be_disabled()"⟩),
  ("to_be_checked", ⟨[("self", Option.none)], fun vs => expectPrefix vs ++ ".to_be_checked()"⟩),
  ("to_be_focused", ⟨[("self", Option.none)], fun vs => expectPrefix vs ++ ".to_be_focused()"⟩),
  ("to_be_editable", ⟨[("self", Option.none)], fun vs => expectPrefix vs ++ ".to_be_editable()"⟩),
  ("to_be_empty", ⟨[("self", Option.none)], fun vs => expectPrefix vs ++ ".to_be_empty()"⟩),
  ("to_be_attached", ⟨[("self", Option.none)], fun vs => expectPrefix vs ++ ".to_be_attached()"⟩),
  ("to_be_in_viewport", ⟨[("self", Option.none)],
    fun vs => expectPrefix vs ++ ".to_be_in_viewport()"⟩),
  ("to_have_text", ⟨[("self", Option.none), ("expected", Option.none)],
    fun vs => expectPrefix vs ++ ".to_have_text(" ++ reprOf (arg vs 1) ++ ")"⟩),
  ("to_contain_text", ⟨[("self", Option.none), ("expected", Option.none)],
    fun vs => expectPrefix vs ++ ".to_contain_text(" ++ reprOf (arg vs 1) ++ ")"⟩),
  ("to_have_value", ⟨[("self", Option.none), ("value", Option.none)],
    fun vs => expectPrefix vs ++ ".to_have_value(" ++ reprOf (arg vs 1) ++ ")"⟩),
  ("to_have_values", ⟨[("self", Option.none), ("values", Option.none)],
    fun vs => expectPrefix vs ++ ".to_have_values(...)"⟩),
  ("to_have_attribute",
    ⟨[("self", Option.none), ("name", Option.none), ("value", Option.none)],
    fun vs => expectPrefix vs ++ ".to_have_attribute(" ++ reprOf (arg vs 1) ++ ", "
      ++ reprOf (arg vs 2) ++ ")"⟩),
  ("to_have_class", ⟨[("self", Option.none), ("expected", Option.none)],
    fun vs => expectPrefix vs ++ ".to_have_class(" ++ reprOf (arg vs 1) ++ ")"⟩),
  ("to_have_count", ⟨[("self", Option.none), ("count", Option.none)],
    fun vs => expectPrefix vs ++ ".to_have_count(" ++ strOf (arg vs 1) ++ ")"⟩),
  ("to_have_css", ⟨[("self", Option.none), ("name", Option.none), ("value", Option.none)],
    fun vs => expectPrefix vs ++ ".to_have_css(" ++ reprOf (arg vs 1) ++ ", "
      ++ reprOf (arg vs 2) ++ ")"⟩),
  ("to_have_id", ⟨[("self", Option.none), ("id", Option.none)],
    fun vs => expectPrefix vs ++ ".to_have_id(" ++ reprOf (arg vs 1) ++ ")"⟩),
  ("to_have_js_property",
    ⟨[("self", Option.none), ("name", Option.none), ("value", Option.none)],
    fun vs => expectPrefix vs ++ ".to_have_js_property(" ++ reprOf (arg vs 1) ++ ", ...)"⟩),
  ("to_have_role", ⟨[("self", Option.none), ("role", Option.none)],
    fun vs => expectPrefix vs ++ ".to_have_role(" ++ reprOf (arg vs 1) ++ ")"⟩),
  ("to_have_accessible_name", ⟨[("self", Option.none), ("name", Option.none)],
    fun vs => expectPrefix vs ++ ".to_have_accessible_name(" ++ reprOf (arg vs 1) ++ ")"⟩),
  ("to_have_accessible_description",
    ⟨[("self", Option.none), ("description", Option.none)],
    fun vs => expectPrefix vs ++ ".to_have_accessible_description("
      ++ reprOf (arg vs 1) ++ ")"⟩)]

/-- All title rules installed anywhere by the instrumentation. -/
def allTitleRules : List (String × TitleRule) :=
  pageMethodsNavigation ++ pageMethodsAction ++ pageMethodsWait ++
  locatorMethodsAction ++ locatorMethodsWait ++ assertionMethods

/-! ## The wrappers (instrumentation.py, `wrap_sync_method` / `wrap_async_method`)

`wrap_sync_method rule category method t0 t1 args kwargs st` models one
invocation of the wrapper that `wrap_sync_method(method, category, title_fn)`
produces: `rule` is the title lambda, `method` the underlying bound
operation (a black box that either returns a value or raises), `t0` and `t1`
the two `time.time()` reads, and `st` the reporter state on entry.  The
result is the `Except` outcome the caller observes paired with the reporter
state on exit.  A `TypeError` raised while computing the title propagates
before any event is emitted, exactly as in the source where
`title = title_fn(*args, **kwargs)` precedes `reporter.on_step_begin`. -/
def wrap_sync_method (rule : TitleRule) (category : String)
    (method : List PyValue → List (String × PyValue) → Except PyExc PyValue)
    (t0 t1 : ℚ) (args : List PyValue) (kwargs : List (String × PyValue))
    (st : ReporterState) : Except PyExc PyValue × ReporterState :=
  match applyRule rule args kwargs with
  | .error e => (.error e, st)
  | .ok title =>
    let st1 := on_step_begin title category st
    let duration := (t1 - t0) * 1000
    match method args kwargs with
    | .ok r => (.ok r, on_step_end title category duration Option.none st1)
    | .error e => (.error e, on_step_end title category duration (some (excStr e)) st1)

/-- One invocation of the wrapper that `wrap_async_method` produces.  The
suspension of `await method(*args, **kwargs)` is transparent in this
embedding (the wrapper itself awaits, then runs the same success and failure
paths), so the body coincides with the blocking wrapper. -/
def wrap_async_method (rule : TitleRule) (category : String)
    (method : List PyValue → List (String × PyValue) → Except PyExc PyValue)
    (t0 t1 : ℚ) (args : List PyValue) (kwargs : List (String × PyValue))
    (st : ReporterState) : Except PyExc PyValue × ReporterState :=
  match applyRule rule args kwargs with
  | .error e => (.error e, st)
  | .ok title =>
    let st1 := on_step_begin title category st
    let duration := (t1 - t0) * 1000
    match method args kwargs with
    | .ok r => (.ok r, on_step_end title category duration Option.none st1)
    | .error e => (.error e, on_step_end title category duration (some (excStr e)) st1)

/-! ## Lifecycle bridge (plugin.py) -/

/-- The fields of a `pytest.TestReport` the plugin reads.  `longrepr` is the
failure representation object: `Option.none` models `None`, `some s` models
an object whose `str()` is `s`. -/
structure TestReport where
  nodeid : String
  when : String
  outcome : String
  duration : ℚ
  longrepr : Option String

/-- `report.failed` is the pytest property `outcome == "failed"`. -/
def TestReport.failed (r : TestReport) : Bool := r.outcome == "failed"

/-- The `onTestEnd` record emitted for a report of the `call` phase. -/
def testEndRecord (ts : Nat) (r : TestReport) : List (String × PyValue) :=
  [("event", PyValue.vStr "onTestEnd"), ("timestamp", PyValue.vStr (tsString ts)),
   ("test", PyValue.vDict [("id", PyValue.vStr r.nodeid),
                           ("outcome", PyValue.vStr r.outcome),
                           ("duration", PyValue.vNum r.duration)]),
   ("result", PyValue.vDict [("status", PyValue.vStr r.outcome),
                             ("duration", PyValue.vNum r.duration)])]

/-- The `onError` record emitted for a failed report:
`str(report.longrepr) if report.longrepr else None`. -/
def testErrorRecord (ts : Nat) (longrepr : Option String) : List (String × PyValue) :=
  [("event", PyValue.vStr "onError"), ("timestamp", PyValue.vStr (tsString ts)),
   ("error", optToPy longrepr)]

/-- `pytest_runtest_logreport`: only the `call` phase produces an
`onTestEnd` event, and a failed `call` report additionally produces an
`onError` event. -/
def pytest_runtest_logreport (report : TestReport) (st : ReporterState) : ReporterState :=
  if report.when = "call" then
    let st1 := log_event "onTestEnd"
      (some [("test", PyValue.vDict [("id", PyValue.vStr report.nodeid),
                                     ("outcome", PyValue.vStr report.outcome),
                                     ("duration", PyValue.vNum report.duration)]),
             ("result", PyValue.vDict [("status", PyValue.vStr report.outcome),
                                       ("duration", PyValue.vNum report.duration)])]) st
    if report.failed then
      log_event "onError" (some [("error", optToPy report.longrepr)]) st1
    else st1
  else st

/-- The fields of a `pytest.CallInfo` the plugin reads.  `excinfo` is
`Option.none` when the phase succeeded, and `some msg` when an exception
with `str(call.excinfo.value) = msg` was raised. -/
structure CallInfo where
  when : String
  duration : ℚ
  excinfo : Option String

/-- `pytest_runtest_makereport`: a phase that raised logs an `onStepEnd`
shaped record keyed by the phase name, with no `category` entry. -/
def pytest_runtest_makereport (call : CallInfo) (st : ReporterState) : ReporterState :=
  match call.excinfo with
  | Option.none => st
  | some msg =>
    log_event "onStepEnd"
      (some [("step", PyValue.vDict [("title", PyValue.vStr call.when),
                                     ("duration", PyValue.vNum call.duration),
                                     ("error", PyValue.vStr msg)])]) st

/-- `pytest_sessionstart`. -/
def pytest_sessionstart (rootdir : String) (cliArgs : List String)
    (st : ReporterState) : ReporterState :=
  log_event "onBegin"
    (some [("rootdir", PyValue.vStr rootdir),
           ("args", PyValue.vList (cliArgs.map PyValue.vStr))]) st

/-- `pytest_sessionfinish`. -/
def pytest_sessionfinish (exitstatus testsfailed testscollected : Int)
    (st : ReporterState) : ReporterState :=
  log_event "onEnd"
    (some [("exitstatus", PyValue.vInt exitstatus),
           ("testsfailed", PyValue.vInt testsfailed),
           ("testscollected", PyValue.vInt testscollected)]) st

/-- `pytest_runtest_logstart`. -/
def pytest_runtest_logstart (nodeid : String) (file : String) (line : Option Int)
    (name : String) (st : ReporterState) : ReporterState :=
  log_event "onTestBegin"
    (some [("test", PyValue.vDict
      [("id", PyValue.vStr nodeid),
       ("location", PyValue.vDict
         [("file", PyValue.vStr file),
          ("line", match line with | some n => PyValue.vInt n | Option.none => PyValue.vNone),
          ("name", PyValue.vStr name)])])]) st

/-! ## The installer (instrumentation.py, patching)

For the patching claims only the wrapping structure of a class attribute
matters, not its behaviour, so a method is modelled as an original callable
identified by a number, or a wrapper produced by `wrap_async_method` /
`wrap_sync_method` around an inner callable, remembering the calling
convention and the category it was installed with.  The
`_pw_reporter_wrapped` marker is set exactly on wrappers. -/

inductive Method where
  | base (id : Nat)
  | wrapped (isAsync : Bool) (category : String) (inner : Method)
deriving DecidableEq

/-- `is_wrapped`: `getattr(method, "_pw_reporter_wrapped", False)`. -/
def is_wrapped : Method → Bool
  | .base _ => false
  | .wrapped _ _ _ => true

/-- `wrap_async_method if is_async else wrap_sync_method`, viewed at the
patching level: unconditionally build a new marked wrapper. -/
def wrapMethod (isAsync : Bool) (category : String) (m : Method) : Method :=
  .wrapped isAsync category m

/-- A patched class: its attribute dictionary, operation name to method. -/
abbrev PWClass := List (String × Method)

/-- `setattr(C, name, m)`: overwrite the attribute when present, add it
otherwise (the patch loops only call it on present attributes). -/
def setAttr (c : PWClass) (n : String) (m : Method) : PWClass :=
  if (c.lookup n).isSome then
    c.map fun p => if p.1 = n then (n, m) else p
  else c ++ [(n, m)]

/-- One iteration of a patch loop:
`if hasattr(C, name): original = getattr(C, name);`
`if not is_wrapped(original): setattr(C, name, wrap(original, cat, fn))`. -/
def patchOne (isAsync : Bool) (category : String) (c : PWClass)
    (entry : String × TitleRule) : PWClass :=
  match c.lookup entry.1 with
  | Option.none => c
  | some orig =>
    if is_wrapped orig then c
    else setAttr c entry.1 (wrapMethod isAsync category orig)

/-- One `for name, title_fn in methods:` loop over a descriptor table. -/
def patchTable (isAsync : Bool) (category : String)
    (tbl : List (String × TitleRule)) (c : PWClass) : PWClass :=
  tbl.foldl (patchOne isAsync category) c

/-- The successive loops of one `patch_*_class` function: a list of
(category, descriptor table) pairs applied in order. -/
def patchTables (isAsync : Bool) (specs : List (String × List (String × TitleRule)))
    (c : PWClass) : PWClass :=
  specs.foldl (fun c sp => patchTable isAsync sp.1 sp.2 c) c

/-- The three loops of `patch_page_class` in source order. -/
def pageSpecs : List (String × List (String × TitleRule)) :=
  [("navigation", pageMethodsNavigation), ("action", pageMethodsAction),
   ("wait", pageMethodsWait)]

/-- The two loops of `patch_locator_class` in source order. -/
def locatorSpecs : List (String × List (String × TitleRule)) :=
  [("action", locatorMethodsAction), ("wait", locatorMethodsWait)]

/-- The single loop of `patch_assertions_class`. -/
def assertionSpecs : List (String × List (String × TitleRule)) :=
  [("assertion", assertionMethods)]

/-- `patch_page_class(PageClass, is_async)`. -/
def patch_page_class (c : PWClass) (isAsync : Bool) : PWClass :=
  patchTables isAsync pageSpecs c

/-- `patch_locator_class(LocatorClass, is_async)`. -/
def patch_locator_class (c : PWClass) (isAsync : Bool) : PWClass :=
  patchTables isAsync locatorSpecs c

/-- `patch_assertions_class(AssertionsClass, is_async)`. -/
def patch_assertions_class (c : PWClass) (isAsync : Bool) : PWClass :=
  patchTables isAsync assertionSpecs c

/-- The three classes one calling-convention variant of the automation
library exposes (`Page`, `Locator`, `LocatorAssertions`). -/
structure Apis where
  page : PWClass
  locator : PWClass
  assertions : PWClass
deriving DecidableEq

/-- The body of one `try:` block of `patch_playwright`: patch the three
classes of one variant. -/
def patchApis (isAsync : Bool) (a : Apis) : Apis :=
  { page := patch_page_class a.page isAsync,
    locator := patch_locator_class a.locator isAsync,
    assertions := patch_assertions_class a.assertions isAsync }

/-- The process environment `patch_playwright` operates on: the module-wide
`_patched` flag, and the two calling-convention variants of the library,
each absent (`Option.none`, the `from playwright... import` raises
`ImportError`) or present. -/
structure Env where
  patched : Bool
  asyncApi : Option Apis
  syncApi : Option Apis
deriving DecidableEq

/-- A `from playwright.<variant> import ...` statement: raises
`ImportError` exactly when the variant is absent. -/
def importApis : Option Apis → Except PyExc Apis
  | Option.none => .error .importError
  | some a => .ok a

/-- One `try: ... except ImportError: pass` block of `patch_playwright`:
obtain the variant and patch its classes; a raised `ImportError` is caught
and leaves the variant untouched, any other exception would propagate. -/
def patchVariant (isAsync : Bool) (api : Option Apis) : Except PyExc (Option Apis) :=
  match (importApis api).map (fun a => some (patchApis isAsync a)) with
  | .error .importError => .ok api
  | r => r

/-- `patch_playwright()` with the possibility of an escaping exception made
explicit: return on the `_patched` guard, otherwise run the two guarded
blocks and set the flag. -/
def patch_playwrightE (env : Env) : Except PyExc Env :=
  if env.patched then .ok env
  else
    match patchVariant true env.asyncApi with
    | .error e => .error e
    | .ok a =>
      match patchVariant false env.syncApi with
      | .error e => .error e
      | .ok s => .ok { patched := true, asyncApi := a, syncApi := s }

/-- `patch_playwright()` as the total state transformation it actually is
(the only exceptions its body can raise are the two caught imports). -/
def patch_playwright (env : Env) : Env :=
  if env.patched then env
  else { patched := true,
         asyncApi := env.asyncApi.map (patchApis true),
         syncApi := env.syncApi.map (patchApis false) }

/-! ## Predicates used by the statements -/

/-- The category vocabulary of the wire format. -/
def allowedCategories : List String := ["navigation", "action", "wait", "assertion"]

/-- Every wrap layer of a method was installed with an allowed category. -/
def catsOk : Method → Bool
  | .base _ => true
  | .wrapped _ c m => allowedCategories.contains c && catsOk m

/-- All methods of a class satisfy `catsOk`. -/
def classCatsOk (c : PWClass) : Prop := ∀ p ∈ c, catsOk p.2 = true

/-- All methods of all three classes of a variant satisfy `catsOk`. -/
def apisCatsOk : Apis → Prop
  | ⟨pg, lc, asrt⟩ => classCatsOk pg ∧ classCatsOk lc ∧ classCatsOk asrt

/-- A method is not wrapped twice (no wrapper directly around a wrapper). -/
def notDouble : Method → Bool
  | .wrapped _ _ (.wrapped _ _ _) => false
  | _ => true

/-- No method of a class is double-wrapped. -/
def classNotDouble (c : PWClass) : Prop := ∀ p ∈ c, notDouble p.2 = true

/-- No method of any class of a variant is double-wrapped. -/
def apisNotDouble : Apis → Prop
  | ⟨pg, lc, asrt⟩ => classNotDouble pg ∧ classNotDouble lc ∧ classNotDouble asrt

/-- The operation at attribute `n`, if present, is a wrapped method. -/
def wrappedAt (c : PWClass) (n : String) : Prop :=
  ∀ m, c.lookup n = some m → is_wrapped m = true

/-! # Theorems -/

mutual

/-- With `default=str` every embedded value serializes successfully. -/
theorem jsonVal_total : ∀ v : PyValue, ∃ s, jsonVal true v = .ok s
  | .vNone => ⟨_, rfl⟩
  | .vBool _ => ⟨_, rfl⟩
  | .vInt _ => ⟨_, rfl⟩
  | .vNum _ => ⟨_, rfl⟩
  | .vStr _ => ⟨_, rfl⟩
  | .vList l => by
    obtain ⟨s, h⟩ := jsonList_total l
    exact ⟨"[" ++ s ++ "]", by simp [jsonVal, h]⟩
  | .vDict l => by
    obtain ⟨s, h⟩ := jsonDict_total l
    exact ⟨"\x7b" ++ s ++ "\x7d", by simp [jsonVal, h]⟩
  | .vObj _ r => ⟨_, rfl⟩

/-- With `default=str` every list of embedded values serializes. -/
theorem jsonList_total : ∀ l : List PyValue, ∃ s, jsonList true l = .ok s
  | [] => ⟨_, rfl⟩
  | [v] => by
    obtain ⟨s, h⟩ := jsonVal_total v
    exact ⟨s, by simp [jsonList, h]⟩
  | v :: w :: vs => by
    obtain ⟨s, h⟩ := jsonVal_total v
    obtain ⟨t, h2⟩ := jsonList_total (w :: vs)
    exact ⟨s ++ "," ++ t, by simp [jsonList, h, h2]⟩

/-- With `default=str` every dict of embedded values serializes. -/
theorem jsonDict_total : ∀ l : List (String × PyValue), ∃ s, jsonDict true l = .ok s
  | [] => ⟨_, rfl⟩
  | [(k, v)] => by
    obtain ⟨s, h⟩ := jsonVal_total v
    exact ⟨quoteStr k ++ ":" ++ s, by simp [jsonDict, h]⟩
  | (k, v) :: p :: l => by
    obtain ⟨s, h⟩ := jsonVal_total v
    obtain ⟨t, h2⟩ := jsonDict_total (p :: l)
    exact ⟨quoteStr k ++ ":" ++ s ++ "," ++ t, by simp [jsonDict, h, h2]⟩

end

/-- `on_step_begin` appends exactly the begin record and one output line. -/
theorem on_step_begin_eq (title cat : String) (st : ReporterState) :
    on_step_begin title cat st =
      { st with events := st.events ++ [stepBeginRecord st.clock title cat],
                output := st.output ++ [lineOf (stepBeginRecord st.clock title cat)] } := rfl

/-- `on_step_end` appends exactly the end record and one output line. -/
theorem on_step_end_eq (title cat : String) (dur : ℚ) (err : Option String)
    (st : ReporterState) :
    on_step_end title cat dur err st =
      { st with events := st.events ++ [stepEndRecord st.clock title cat dur err],
                output := st.output ++ [lineOf (stepEndRecord st.clock title cat dur err)] } :=
  rfl

/-- C1: a successful invocation of a wrapped operation (blocking or
suspending) emits exactly one `StepBegin` and then one matching `StepEnd`
with the same title and category, with the error field absent and a
duration that is nonnegative whenever the second clock read is not earlier
than the first, and returns the underlying result unchanged. -/
theorem claim1_success_step_pair (rule : TitleRule) (category title : String)
    (method : List PyValue → List (String × PyValue) → Except PyExc PyValue)
    (t0 t1 : ℚ) (args : List PyValue) (kwargs : List (String × PyValue))
    (st : ReporterState) (r : PyValue)
    (ht : applyRule rule args kwargs = .ok title)
    (hm : method args kwargs = .ok r)
    (hc : t0 ≤ t1) :
    wrap_sync_method rule category method t0 t1 args kwargs st =
      (Except.ok r,
       { st with
         events := st.events ++
           [stepBeginRecord st.clock title category,
            stepEndRecord st.clock title category ((t1 - t0) * 1000) Option.none],
         output := st.output ++
           [lineOf (stepBeginRecord st.clock title category),
            lineOf (stepEndRecord st.clock title category ((t1 - t0) * 1000) Option.none)] })
    ∧ wrap_async_method rule category method t0 t1 args kwargs st =
        wrap_sync_method rule category method t0 t1 args kwargs st
    ∧ 0 ≤ (t1 - t0) * 1000 := by
  refine ⟨?_, rfl, mul_nonneg (sub_nonneg.mpr hc) (by norm_num)⟩
  simp only [wrap_sync_method, ht, hm]
  simp [on_step_begin_eq, on_step_end_eq, List.append_assoc]

/-- C1 witness: the success theorem applied to a concrete `goto` call. -/
theorem claim1_witness :
    applyRule gotoRule [PyValue.vObj [] "page", PyValue.vStr "u"] [] =
      Except.ok "page.goto(u)"
    ∧ (0 : ℚ) ≤ 0
    ∧ 0 ≤ ((0 : ℚ) - 0) * 1000 :=
  ⟨rfl, le_refl 0,
   (claim1_success_step_pair gotoRule "navigation" "page.goto(u)"
     (fun _ _ => .ok (PyValue.vStr "resp")) 0 0
     [PyValue.vObj [] "page", PyValue.vStr "u"] [] ⟨0, [], []⟩
     (PyValue.vStr "resp") rfl rfl (le_refl 0)).2.2⟩

/-- C2: when the underlying operation raises, the wrapper still emits the
begin/end pair with the same title and category, the end record's error
field carries the textual description of the raised exception, and the very
same exception value is re-raised to the caller. -/
theorem claim2_failure_step_pair (rule : TitleRule) (category title : String)
    (method : List PyValue → List (String × PyValue) → Except PyExc PyValue)
    (t0 t1 : ℚ) (args : List PyValue) (kwargs : List (String × PyValue))
    (st : ReporterState) (e : PyExc)
    (ht : applyRule rule args kwargs = .ok title)
    (hm : method args kwargs = .error e)
    (hc : t0 ≤ t1) :
    wrap_sync_method rule category method t0 t1 args kwargs st =
      (Except.error e,
       { st with
         events := st.events ++
           [stepBeginRecord st.clock title category,
            stepEndRecord st.clock title category ((t1 - t0) * 1000) (some (excStr e))],
         output := st.output ++
           [lineOf (stepBeginRecord st.clock title category),
            lineOf (stepEndRecord st.clock title category ((t1 - t0) * 1000)
              (some (excStr e)))] })
    ∧ wrap_async_method rule category method t0 t1 args kwargs st =
        wrap_sync_method rule category method t0 t1 args kwargs st
    ∧ 0 ≤ (t1 - t0) * 1000 := by
  refine ⟨?_, rfl, mul_nonneg (sub_nonneg.mpr hc) (by norm_num)⟩
  simp only [wrap_sync_method, ht, hm]
  simp [on_step_begin_eq, on_step_end_eq, List.append_assoc]

/-- C2 witness: the failure theorem applied to a concrete raising `goto`. -/
theorem claim2_witness :
    applyRule gotoRule [PyValue.vObj [] "page", PyValue.vStr "u"] [] =
      Except.ok "page.goto(u)"
    ∧ excStr (PyExc.exc "Error" "not found") = "not found"
    ∧ 0 ≤ ((0 : ℚ) - 0) * 1000 :=
  ⟨rfl, rfl,
   (claim2_failure_step_pair gotoRule "navigation" "page.goto(u)"
     (fun _ _ => .error (PyExc.exc "Error" "not found")) 0 0
     [PyValue.vObj [] "page", PyValue.vStr "u"] [] ⟨0, [], []⟩
     (PyExc.exc "Error" "not found") rfl rfl (le_refl 0)).2.2⟩

/-- C10: on a successful wrapped call the emitted `onStepEnd` record keeps
the `error` key explicitly present, bound to `None` (serialized as JSON
`null`), and the step mapping carries exactly the keys `title`, `category`,
`duration`, `error`. -/
theorem claim10_error_key_null (rule : TitleRule) (category title : String)
    (method : List PyValue → List (String × PyValue) → Except PyExc PyValue)
    (t0 t1 : ℚ) (args : List PyValue) (kwargs : List (String × PyValue))
    (st : ReporterState) (r : PyValue)
    (ht : applyRule rule args kwargs = .ok title)
    (hm : method args kwargs = .ok r) :
    (wrap_sync_method rule category method t0 t1 args kwargs st).2.events =
      st.events ++
        [stepBeginRecord st.clock title category,
         stepEndRecord st.clock title category ((t1 - t0) * 1000) Option.none]
    ∧ stepKeys (stepEndRecord st.clock title category ((t1 - t0) * 1000) Option.none) =
        ["title", "category", "duration", "error"]
    ∧ stepLookup (stepEndRecord st.clock title category ((t1 - t0) * 1000) Option.none)
        "error" = some PyValue.vNone
    ∧ jsonVal true PyValue.vNone = .ok "null" := by
  refine ⟨?_, rfl, rfl, rfl⟩
  simp only [wrap_sync_method, ht, hm]
  simp [on_step_begin_eq, on_step_end_eq, List.append_assoc]

/-- C10 witness: the error-key theorem applied to a concrete `goto` call. -/
theorem claim10_witness :
    applyRule gotoRule [PyValue.vObj [] "page", PyValue.vStr "u"] [] =
      Except.ok "page.goto(u)"
    ∧ stepLookup (stepEndRecord 0 "page.goto(u)" "navigation" (((0 : ℚ) - 0) * 1000)
        Option.none) "error" = some PyValue.vNone :=
  ⟨rfl,
   (claim10_error_key_null gotoRule "navigation" "page.goto(u)"
     (fun _ _ => .ok (PyValue.vStr "resp")) 0 0
     [PyValue.vObj [] "page", PyValue.vStr "u"] [] ⟨0, [], []⟩
     (PyValue.vStr "resp") rfl rfl).2.2.1⟩

/-- The `onTestEnd` payload built by `log_event` is the expected record. -/
theorem mkPayload_testEnd (report : TestReport) (ts : Nat) :
    mkPayload "onTestEnd"
      (some [("test", PyValue.vDict [("id", PyValue.vStr report.nodeid),
                                     ("outcome", PyValue.vStr report.outcome),
                                     ("duration", PyValue.vNum report.duration)]),
             ("result", PyValue.vDict [("status", PyValue.vStr report.outcome),
                                       ("duration", PyValue.vNum report.duration)])]) ts =
    testEndRecord ts report := rfl

/-- The `onError` payload built by `log_event` is the expected record. -/
theorem mkPayload_testError (lr : Option String) (ts : Nat) :
    mkPayload "onError" (some [("error", optToPy lr)]) ts = testErrorRecord ts lr := rfl

/-- C5: the lifecycle bridge translates a test-phase report into an
`onTestEnd` event exactly when the phase is the main test body (`call`),
and a failed `call` report emits exactly one additional `onError` event,
after the `onTestEnd` event, carrying the textual representation of the
failure when one is attached. -/
theorem claim5_logreport_events (report : TestReport) (st : ReporterState) :
    (report.when ≠ "call" → pytest_runtest_logreport report st = st)
    ∧ (report.when = "call" → report.failed = false →
        pytest_runtest_logreport report st =
          { st with events := st.events ++ [testEndRecord st.clock report],
                    output := st.output ++ [lineOf (testEndRecord st.clock report)] })
    ∧ (report.when = "call" → report.failed = true →
        pytest_runtest_logreport report st =
          { st with
            events := st.events ++
              [testEndRecord st.clock report, testErrorRecord st.clock report.longrepr],
            output := st.output ++
              [lineOf (testEndRecord st.clock report),
               lineOf (testErrorRecord st.clock report.longrepr)] }) := by
  refine ⟨fun hw => by simp [pytest_runtest_logreport, hw], fun hw hf => ?_, fun hw hf => ?_⟩
  · simp only [pytest_runtest_logreport, hw, hf, if_true, if_pos, Bool.false_eq_true,
      if_false]
    simp [log_event, mkPayload_testEnd]
  · simp only [pytest_runtest_logreport, hw, hf, if_true, if_pos]
    simp [log_event, mkPayload_testEnd, mkPayload_testError, List.append_assoc]

/-- C5 witness: the bridge theorem applied to a concrete failed `call`
report, producing the `onTestEnd` then `onError` records. -/
theorem claim5_witness :
    pytest_runtest_logreport ⟨"t.py::t", "call", "failed", 2, some "boom"⟩ ⟨0, [], []⟩ =
      { clock := 0,
        events := [testEndRecord 0 ⟨"t.py::t", "call", "failed", 2, some "boom"⟩,
                   testErrorRecord 0 (some "boom")],
        output := [lineOf (testEndRecord 0 ⟨"t.py::t", "call", "failed", 2, some "boom"⟩),
                   lineOf (testErrorRecord 0 (some "boom"))] } :=
  (claim5_logreport_events ⟨"t.py::t", "call", "failed", 2, some "boom"⟩ ⟨0, [], []⟩).2.2
    rfl rfl

/-- C7: `log_event` never fails on any payload: the stamped record is
appended to the history, its serialization with `default=str` succeeds and
is written immediately, and a bare object value (non-representable without
the default) is degraded to its `str()` text instead of aborting. -/
theorem claim7_record_never_fails (ev : String)
    (data : Option (List (String × PyValue))) (st : ReporterState) :
    (∃ line, jsonVal true (PyValue.vDict (mkPayload ev data st.clock)) = .ok line
      ∧ log_event ev data st =
          { st with events := st.events ++ [mkPayload ev data st.clock],
                    output := st.output ++ [line] })
    ∧ (∀ (attrs : List (String × PyValue)) (r : String),
        jsonVal false (PyValue.vObj attrs r) = .error ()
        ∧ jsonVal true (PyValue.vObj attrs r) = .ok (quoteStr r)) := by
  refine ⟨?_, fun attrs r => ⟨rfl, rfl⟩⟩
  obtain ⟨line, h⟩ := jsonVal_total (PyValue.vDict (mkPayload ev data st.clock))
  exact ⟨line, h, by simp [log_event, lineOf, h]⟩

/-- Argument binding succeeds whenever one positional argument is supplied
per named parameter and no keyword argument duplicates a parameter name. -/
theorem bindParams_ok (ps : List (String × Option PyValue)) :
    ∀ (args : List PyValue) (kw : List (String × PyValue)),
    args.length = ps.length →
    (∀ p ∈ ps, kw.lookup p.1 = Option.none) →
    ∃ vs, bindParams ps args kw = .ok vs := by
  induction ps with
  | nil =>
    intro args kw hlen _
    have h0 : args = [] := List.length_eq_zero.mp hlen
    subst h0
    exact ⟨[], rfl⟩
  | cons p ps ih =>
    intro args kw hlen hkw
    obtain ⟨n, d⟩ := p
    cases args with
    | nil => exact absurd hlen (by simp)
    | cons a args =>
      have hn : kw.lookup n = Option.none := hkw (n, d) (List.mem_cons_self _ _)
      obtain ⟨vs, hvs⟩ :=
        ih args kw (by simpa using hlen) (fun q hq => hkw q (List.mem_cons_of_mem _ hq))
      exact ⟨a :: vs, by simp [bindParams, hn, hvs]⟩

/-- C6 counterexample: the claim that evaluating a title rule never raises
is false on the code.  The `page.goto` title lambda, evaluated with the
`url` argument missing, raises a `TypeError`, and the wrapper propagates it
to the caller before any event is emitted — no placeholder substitution
happens. -/
theorem claim6_counterexample :
    applyRule gotoRule [PyValue.vObj [] "page"] [] =
      Except.error (PyExc.typeError "missing a required argument: url")
    ∧ wrap_sync_method gotoRule "navigation" (fun _ _ => .ok PyValue.vNone) 0 0
        [PyValue.vObj [] "page"] [] ⟨0, [], []⟩ =
      (Except.error (PyExc.typeError "missing a required argument: url"), ⟨0, [], []⟩) :=
  ⟨rfl, rfl⟩

/-- C6 (amended): a title rule never raises when the call supplies one
positional argument per named parameter and no conflicting keyword — the
formatting body itself cannot fail on any argument value — and the
assertion-description helper substitutes the placeholder `"locator"` when
no candidate locator field is present; but a call that omits a required
positional argument makes the rule raise `TypeError`. -/
theorem claim6_title_rules_amended :
    (∀ r ∈ allTitleRules, ∀ (args : List PyValue) (kwargs : List (String × PyValue)),
      args.length = r.2.params.length →
      (∀ p ∈ r.2.params, kwargs.lookup p.1 = Option.none) →
      ∃ t, applyRule r.2 args kwargs = .ok t)
    ∧ (∀ s, get_locator_desc (PyValue.vObj [] s) = "locator") := by
  refine ⟨fun r _ args kwargs hlen hkw => ?_, fun s => rfl⟩
  obtain ⟨vs, hvs⟩ := bindParams_ok r.2.params args kwargs hlen hkw
  exact ⟨r.2.fmt vs, by simp [applyRule, hvs]⟩

/-- C6 witness: the amended theorem applied to the `goto` rule with its
arguments supplied. -/
theorem claim6_witness :
    ("goto", gotoRule) ∈ allTitleRules
    ∧ [PyValue.vObj [] "page", PyValue.vStr "a"].length = gotoRule.params.length
    ∧ (∀ p ∈ gotoRule.params, ([] : List (String × PyValue)).lookup p.1 = Option.none)
    ∧ (∃ t, applyRule gotoRule [PyValue.vObj [] "page", PyValue.vStr "a"] [] = .ok t)
    ∧ get_locator_desc (PyValue.vObj [] "obj") = "locator" := by
  have hmem : ("goto", gotoRule) ∈ allTitleRules := by
    simp [allTitleRules, pageMethodsNavigation]
  refine ⟨hmem, rfl, by simp, ?_, claim6_title_rules_amended.2 "obj"⟩
  exact claim6_title_rules_amended.1 ("goto", gotoRule) hmem
    [PyValue.vObj [] "page", PyValue.vStr "a"] [] rfl (by simp)

/-! ### Lemmas about the patching primitives -/
/-- Lookup skips a head entry with a different key. -/
theorem lookup_cons_of_ne (n k : String) (v : Method) (c : PWClass) (h : n ≠ k) :
    List.lookup n ((k, v) :: c) = List.lookup n c := by
  simp [List.lookup, beq_eq_false_iff_ne.mpr h]

/-- A successful attribute lookup comes from an entry of the class. -/
theorem mem_of_lookup {c : PWClass} {n : String} {m : Method}
    (h : c.lookup n = some m) : (n, m) ∈ c := by
  induction c with
  | nil => simp [List.lookup] at h
  | cons p c ih =>
    obtain ⟨k, v⟩ := p
    by_cases hk : n = k
    · subst hk
      rw [List.lookup_cons_self] at h
      injection h with h2
      subst h2
      exact List.mem_cons_self _ _
    · rw [lookup_cons_of_ne n k v c hk] at h
      exact List.mem_cons_of_mem _ (ih h)

/-- Overwriting a present attribute makes its lookup return the new value. -/
theorem lookup_setAttr_self (c : PWClass) (n : String) (v : Method)
    (h : (c.lookup n).isSome) : (setAttr c n v).lookup n = some v := by
  induction c with
  | nil => simp [List.lookup] at h
  | cons p c ih =>
    obtain ⟨k, w⟩ := p
    by_cases hk : k = n
    · subst hk
      simp only [setAttr]
      rw [if_pos (by simp [List.lookup_cons_self])]
      simp [List.lookup_cons_self]
    · have h' : (c.lookup n).isSome := by
        rw [lookup_cons_of_ne n k w c (Ne.symm hk)] at h
        exact h
      have hmain := ih h'
      simp only [setAttr] at hmain ⊢
      rw [if_pos h'] at hmain
      rw [if_pos (by rw [lookup_cons_of_ne n k w c (Ne.symm hk)]; exact h')]
      simp only [List.map_cons]
      rw [show (if (k, w).1 = n then (n, v) else (k, w)) = (k, w) from by simp [hk]]
      rw [lookup_cons_of_ne n k w _ (Ne.symm hk)]
      exact hmain

/-- Overwriting one attribute leaves the lookup of other keys unchanged. -/
theorem lookup_map_overwrite (c : PWClass) (n k : String) (v : Method) (hk : k ≠ n) :
    (c.map fun p => if p.1 = n then (n, v) else p).lookup k = c.lookup k := by
  induction c with
  | nil => rfl
  | cons p c ih =>
    obtain ⟨a, w⟩ := p
    simp only [List.map_cons]
    by_cases ha : a = n
    · subst ha
      rw [show (if (a, w).1 = a then (a, v) else (a, w)) = (a, v) from by simp]
      rw [lookup_cons_of_ne k a v _ hk, lookup_cons_of_ne k a w c hk]
      exact ih
    · rw [show (if (a, w).1 = n then (n, v) else (a, w)) = (a, w) from by simp [ha]]
      by_cases hka : k = a
      · subst hka
        rw [List.lookup_cons_self, List.lookup_cons_self]
      · rw [lookup_cons_of_ne k a w _ hka, lookup_cons_of_ne k a w c hka]
        exact ih

/-- Appending one attribute leaves the lookup of other keys unchanged. -/
theorem lookup_append_single (c : PWClass) (n k : String) (v : Method) (hk : k ≠ n) :
    (c ++ [(n, v)]).lookup k = c.lookup k := by
  induction c with
  | nil =>
    simp only [List.nil_append]
    rw [lookup_cons_of_ne k n v [] hk]
  | cons p c ih =>
    obtain ⟨a, w⟩ := p
    simp only [List.cons_append]
    by_cases hka : k = a
    · subst hka
      rw [List.lookup_cons_self, List.lookup_cons_self]
    · rw [lookup_cons_of_ne k a w _ hka, lookup_cons_of_ne k a w c hka]
      exact ih

/-- `setattr` on one name leaves the lookup of other names unchanged. -/
theorem lookup_setAttr_ne (c : PWClass) (n k : String) (v : Method) (hk : k ≠ n) :
    (setAttr c n v).lookup k = c.lookup k := by
  unfold setAttr
  split
  · exact lookup_map_overwrite c n k v hk
  · exact lookup_append_single c n k v hk

/-- Membership in a class after `setattr`. -/
theorem mem_setAttr {c : PWClass} {n : String} {v : Method} {p : String × Method}
    (h : p ∈ setAttr c n v) : p = (n, v) ∨ p ∈ c := by
  unfold setAttr at h
  split at h
  · obtain ⟨q, hq, hfq⟩ := List.mem_map.mp h
    by_cases hq1 : q.1 = n
    · left
      simp [hq1] at hfq
      exact hfq.symm
    · right
      simp [hq1] at hfq
      exact hfq ▸ hq
  · rcases List.mem_append.mp h with h | h
    · exact Or.inr h
    · exact Or.inl (by simpa using h)

/-- The patch-loop body when the operation is absent: no change. -/
theorem patchOne_of_absent {c : PWClass} {e : String × TitleRule} (ia : Bool)
    (cat : String) (h : c.lookup e.1 = Option.none) : patchOne ia cat c e = c := by
  unfold patchOne
  rw [h]

/-- The patch-loop body when the operation is already wrapped: no change. -/
theorem patchOne_of_wrapped {c : PWClass} {e : String × TitleRule} {m : Method}
    (ia : Bool) (cat : String) (h : c.lookup e.1 = some m)
    (hw : is_wrapped m = true) : patchOne ia cat c e = c := by
  unfold patchOne
  rw [h]
  simp [hw]

/-- The patch-loop body when the operation is present and unwrapped: it is
replaced by a wrapper around it. -/
theorem patchOne_of_unwrapped {c : PWClass} {e : String × TitleRule} {m : Method}
    (ia : Bool) (cat : String) (h : c.lookup e.1 = some m)
    (hw : is_wrapped m = false) :
    patchOne ia cat c e = setAttr c e.1 (wrapMethod ia cat m) := by
  unfold patchOne
  rw [h]
  simp [hw]

/-- One patch-loop iteration leaves the lookup of other names unchanged. -/
theorem lookup_patchOne_ne (ia : Bool) (cat : String) (c : PWClass)
    (e : String × TitleRule) (k : String) (hk : k ≠ e.1) :
    (patchOne ia cat c e).lookup k = c.lookup k := by
  cases h : c.lookup e.1 with
  | none => rw [patchOne_of_absent ia cat h]
  | some orig =>
    cases hw : is_wrapped orig
    · rw [patchOne_of_unwrapped ia cat h hw]
      exact lookup_setAttr_ne c e.1 k _ hk
    · rw [patchOne_of_wrapped ia cat h hw]

/-- After one patch-loop iteration the targeted operation is wrapped. -/
theorem patchOne_wrappedAt_self (ia : Bool) (cat : String) (c : PWClass)
    (e : String × TitleRule) : wrappedAt (patchOne ia cat c e) e.1 := by
  intro m hm
  cases h : c.lookup e.1 with
  | none =>
    rw [patchOne_of_absent ia cat h] at hm
    rw [h] at hm
    cases hm
  | some orig =>
    cases hw : is_wrapped orig
    · rw [patchOne_of_unwrapped ia cat h hw] at hm
      rw [lookup_setAttr_self c e.1 _ (by simp [h])] at hm
      injection hm with h2
      rw [← h2]
      rfl
    · rw [patchOne_of_wrapped ia cat h hw] at hm
      rw [h] at hm
      injection hm with h2
      rw [← h2]
      exact hw

/-- One patch-loop iteration preserves wrappedness at any name. -/
theorem patchOne_preserves_wrappedAt (ia : Bool) (cat : String) (c : PWClass)
    (e : String × TitleRule) (k : String) (h : wrappedAt c k) :
    wrappedAt (patchOne ia cat c e) k := by
  by_cases hk : k = e.1
  · subst hk
    exact patchOne_wrappedAt_self ia cat c e
  · intro m hm
    rw [lookup_patchOne_ne ia cat c e k hk] at hm
    exact h m hm

/-- One patch-loop iteration is the identity on an already wrapped target. -/
theorem patchOne_id_of_wrappedAt (ia : Bool) (cat : String) (c : PWClass)
    (e : String × TitleRule) (h : wrappedAt c e.1) : patchOne ia cat c e = c := by
  cases hl : c.lookup e.1 with
  | none => exact patchOne_of_absent ia cat hl
  | some orig => exact patchOne_of_wrapped ia cat hl (h orig hl)

/-- One patch-loop iteration never touches an already wrapped method. -/
theorem patchOne_keeps_wrapped (ia : Bool) (cat : String) (c : PWClass)
    (e : String × TitleRule) (n : String) (m : Method) (hl : c.lookup n = some m)
    (hw : is_wrapped m = true) : (patchOne ia cat c e).lookup n = some m := by
  by_cases hk : n = e.1
  · subst hk
    rw [patchOne_of_wrapped ia cat hl hw]
    exact hl
  · rw [lookup_patchOne_ne ia cat c e n hk]
    exact hl

/-- Membership in a class after one patch-loop iteration. -/
theorem mem_patchOne {ia : Bool} {cat : String} {c : PWClass} {e : String × TitleRule}
    {p : String × Method} (h : p ∈ patchOne ia cat c e) :
    p ∈ c ∨ ∃ m, c.lookup e.1 = some m ∧ is_wrapped m = false ∧
      p = (e.1, wrapMethod ia cat m) := by
  cases hl : c.lookup e.1 with
  | none =>
    rw [patchOne_of_absent ia cat hl] at h
    exact Or.inl h
  | some orig =>
    cases hw : is_wrapped orig
    · rw [patchOne_of_unwrapped ia cat hl hw] at h
      rcases mem_setAttr h with h | h
      · exact Or.inr ⟨orig, rfl, hw, h⟩
      · exact Or.inl h
    · rw [patchOne_of_wrapped ia cat hl hw] at h
      exact Or.inl h

/-- Overwriting an attribute preserves the attribute name list. -/
theorem keys_map_overwrite (c : PWClass) (n : String) (v : Method) :
    ((c.map fun p => if p.1 = n then (n, v) else p).map Prod.fst) = c.map Prod.fst := by
  induction c with
  | nil => rfl
  | cons p c ih =>
    obtain ⟨a, w⟩ := p
    by_cases ha : a = n <;> simp [ha, ih]

/-- `patchOne` preserves the attribute name list of the class. -/
theorem keys_patchOne (ia : Bool) (cat : String) (c : PWClass) (e : String × TitleRule) :
    (patchOne ia cat c e).map Prod.fst = c.map Prod.fst := by
  cases hl : c.lookup e.1 with
  | none => rw [patchOne_of_absent ia cat hl]
  | some orig =>
    cases hw : is_wrapped orig
    · rw [patchOne_of_unwrapped ia cat hl hw]
      unfold setAttr
      rw [if_pos (by simp [hl])]
      exact keys_map_overwrite c e.1 _
    · rw [patchOne_of_wrapped ia cat hl hw]

/-- Unfolding equation for a patch loop. -/
theorem patchTable_cons (ia : Bool) (cat : String) (f : String × TitleRule)
    (tbl : List (String × TitleRule)) (c : PWClass) :
    patchTable ia cat (f :: tbl) c = patchTable ia cat tbl (patchOne ia cat c f) := rfl

/-- A whole patch loop preserves wrappedness at any name. -/
theorem patchTable_preserves_wrappedAt (ia : Bool) (cat : String)
    (tbl : List (String × TitleRule)) : ∀ (c : PWClass) (k : String), wrappedAt c k →
    wrappedAt (patchTable ia cat tbl c) k := by
  induction tbl with
  | nil => intro c k h; exact h
  | cons e tbl ih =>
    intro c k h
    rw [patchTable_cons]
    exact ih (patchOne ia cat c e) k (patchOne_preserves_wrappedAt ia cat c e k h)

/-- After a patch loop every operation named in its table is wrapped. -/
theorem patchTable_wrappedAt_mem (ia : Bool) (cat : String)
    (tbl : List (String × TitleRule)) : ∀ (c : PWClass) (e : String × TitleRule),
    e ∈ tbl → wrappedAt (patchTable ia cat tbl c) e.1 := by
  induction tbl with
  | nil => intro c e h; simp at h
  | cons f tbl ih =>
    intro c e h
    rcases List.mem_cons.mp h with rfl | h
    · rw [patchTable_cons]
      exact patchTable_preserves_wrappedAt ia cat tbl (patchOne ia cat c e) e.1
        (patchOne_wrappedAt_self ia cat c e)
    · rw [patchTable_cons]
      exact ih (patchOne ia cat c f) e h

/-- A patch loop whose table names only wrapped operations does nothing. -/
theorem patchTable_id_of_wrappedAt (ia : Bool) (cat : String)
    (tbl : List (String × TitleRule)) : ∀ c : PWClass,
    (∀ e ∈ tbl, wrappedAt c e.1) → patchTable ia cat tbl c = c := by
  induction tbl with
  | nil => intro c _; rfl
  | cons f tbl ih =>
    intro c h
    rw [patchTable_cons,
      patchOne_id_of_wrappedAt ia cat c f (h f (List.mem_cons_self _ _))]
    exact ih c (fun e he => h e (List.mem_cons_of_mem _ he))

/-- A patch loop never touches already wrapped methods. -/
theorem patchTable_keeps_wrapped (ia : Bool) (cat : String)
    (tbl : List (String × TitleRule)) : ∀ (c : PWClass) (n : String) (m : Method),
    c.lookup n = some m → is_wrapped m = true →
    (patchTable ia cat tbl c).lookup n = some m := by
  induction tbl with
  | nil => intro c n m h _; exact h
  | cons f tbl ih =>
    intro c n m h hw
    rw [patchTable_cons]
    exact ih (patchOne ia cat c f) n m (patchOne_keeps_wrapped ia cat c f n m h hw) hw

/-- A patch loop preserves any method predicate that survives wrapping of
an unwrapped method. -/
theorem patchTable_pred (ia : Bool) (cat : String) (tbl : List (String × TitleRule))
    {P : Method → Bool}
    (hP : ∀ m, is_wrapped m = false → P m = true → P (wrapMethod ia cat m) = true) :
    ∀ c : PWClass, (∀ p ∈ c, P p.2 = true) → ∀ p ∈ patchTable ia cat tbl c, P p.2 = true := by
  induction tbl with
  | nil => intro c h; exact h
  | cons f tbl ih =>
    intro c h
    rw [patchTable_cons]
    apply ih (patchOne ia cat c f)
    intro p hp
    rcases mem_patchOne hp with hp | ⟨m, hl, hw, rfl⟩
    · exact h p hp
    · exact hP m hw (h (f.1, m) (mem_of_lookup hl))

/-- A patch loop preserves the attribute name list of the class. -/
theorem keys_patchTable (ia : Bool) (cat : String) (tbl : List (String × TitleRule)) :
    ∀ c : PWClass, (patchTable ia cat tbl c).map Prod.fst = c.map Prod.fst := by
  induction tbl with
  | nil => intro c; rfl
  | cons f tbl ih =>
    intro c
    rw [patchTable_cons, ih (patchOne ia cat c f)]
    exact keys_patchOne ia cat c f

/-- Unfolding equation for a sequence of patch loops. -/
theorem patchTables_cons (ia : Bool) (f : String × List (String × TitleRule))
    (specs : List (String × List (String × TitleRule))) (c : PWClass) :
    patchTables ia (f :: specs) c = patchTables ia specs (patchTable ia f.1 f.2 c) := rfl

/-- A sequence of patch loops preserves wrappedness at any name. -/
theorem patchTables_preserves_wrappedAt (ia : Bool)
    (specs : List (String × List (String × TitleRule))) :
    ∀ (c : PWClass) (k : String), wrappedAt c k →
    wrappedAt (patchTables ia specs c) k := by
  induction specs with
  | nil => intro c k h; simpa [patchTables] using h
  | cons sp specs ih =>
    intro c k h
    simp only [patchTables, List.foldl_cons]
    exact ih (patchTable ia sp.1 sp.2 c) k
      (patchTable_preserves_wrappedAt ia sp.1 sp.2 c k h)

/-- After a sequence of patch loops every operation named in any of their
tables is wrapped. -/
theorem patchTables_wrappedAt_mem (ia : Bool)
    (specs : List (String × List (String × TitleRule))) :
    ∀ (c : PWClass) (sp : String × List (String × TitleRule)), sp ∈ specs →
    ∀ e ∈ sp.2, wrappedAt (patchTables ia specs c) e.1 := by
  induction specs with
  | nil => intro c sp h; simp at h
  | cons f specs ih =>
    intro c sp h e he
    rcases List.mem_cons.mp h with rfl | h
    · simp only [patchTables, List.foldl_cons]
      exact patchTables_preserves_wrappedAt ia specs (patchTable ia sp.1 sp.2 c) e.1
        (patchTable_wrappedAt_mem ia sp.1 sp.2 c e he)
    · simp only [patchTables, List.foldl_cons]
      exact ih (patchTable ia f.1 f.2 c) sp h e he

/-- A sequence of patch loops naming only wrapped operations does nothing. -/
theorem patchTables_id_of_wrappedAt (ia : Bool)
    (specs : List (String × List (String × TitleRule))) :
    ∀ c : PWClass, (∀ sp ∈ specs, ∀ e ∈ sp.2, wrappedAt c e.1) →
    patchTables ia specs c = c := by
  induction specs with
  | nil => intro c _; rfl
  | cons f specs ih =>
    intro c h
    have h1 : patchTable ia f.1 f.2 c = c :=
      patchTable_id_of_wrappedAt ia f.1 f.2 c
        (fun e he => h f (List.mem_cons_self _ _) e he)
    simp only [patchTables, List.foldl_cons, h1]
    exact ih c (fun sp hsp e he => h sp (List.mem_cons_of_mem _ hsp) e he)

/-- A sequence of patch loops is idempotent. -/
theorem patchTables_idem (ia : Bool)
    (specs : List (String × List (String × TitleRule))) (c : PWClass) :
    patchTables ia specs (patchTables ia specs c) = patchTables ia specs c :=
  patchTables_id_of_wrappedAt ia specs (patchTables ia specs c)
    (fun sp hsp e he => patchTables_wrappedAt_mem ia specs c sp hsp e he)

/-- A sequence of patch loops preserves any method predicate that survives
wrapping of an unwrapped method with any of its categories. -/
theorem patchTables_pred (ia : Bool)
    (specs : List (String × List (String × TitleRule))) {P : Method → Bool}
    (hP : ∀ sp ∈ specs, ∀ m, is_wrapped m = false → P m = true →
      P (wrapMethod ia sp.1 m) = true) :
    ∀ c : PWClass, (∀ p ∈ c, P p.2 = true) →
    ∀ p ∈ patchTables ia specs c, P p.2 = true := by
  induction specs with
  | nil => intro c h; simpa [patchTables] using h
  | cons f specs ih =>
    intro c h
    simp only [patchTables, List.foldl_cons]
    apply ih (fun sp hsp => hP sp (List.mem_cons_of_mem _ hsp))
    exact patchTable_pred ia f.1 f.2 (hP f (List.mem_cons_self _ _)) c h

/-- C3: the installer is idempotent: a second `patch_playwright` call (and,
independently of the process-wide flag, a second pass over any variant's
classes) leaves exactly the same wrapped operations as the first, and no
operation is ever wrapped twice. -/
theorem claim3_installer_idempotent :
    (∀ env : Env, patch_playwright (patch_playwright env) = patch_playwright env)
    ∧ (∀ (ia : Bool) (a : Apis), patchApis ia (patchApis ia a) = patchApis ia a)
    ∧ (∀ (ia : Bool) (a : Apis), apisNotDouble a → apisNotDouble (patchApis ia a)) := by
  refine ⟨?_, ?_, ?_⟩
  · intro env
    by_cases h : env.patched
    · simp [patch_playwright, h]
    · simp [patch_playwright, h]
  · intro ia a
    unfold patchApis patch_page_class patch_locator_class patch_assertions_class
    rw [patchTables_idem, patchTables_idem, patchTables_idem]
  · intro ia a
    obtain ⟨pg, lc, asrt⟩ := a
    rintro ⟨hp, hl, hs⟩
    have hP : ∀ (specs : List (String × List (String × TitleRule))),
        ∀ sp ∈ specs, ∀ m, is_wrapped m = false → notDouble m = true →
        notDouble (wrapMethod ia sp.1 m) = true := by
      intro specs sp _ m hm _
      cases m with
      | base i => rfl
      | wrapped b cc inner => simp [is_wrapped] at hm
    exact ⟨patchTables_pred ia pageSpecs (hP pageSpecs) pg hp,
           patchTables_pred ia locatorSpecs (hP locatorSpecs) lc hl,
           patchTables_pred ia assertionSpecs (hP assertionSpecs) asrt hs⟩

/-- C3 witness: idempotence at a concrete environment, and no double
wrapping when patching a class holding one unwrapped `goto`. -/
theorem claim3_witness :
    patch_playwright (patch_playwright ⟨false, Option.none, Option.none⟩) =
      patch_playwright ⟨false, Option.none, Option.none⟩
    ∧ apisNotDouble (patchApis true ⟨[("goto", Method.base 0)], [], []⟩) :=
  ⟨claim3_installer_idempotent.1 ⟨false, Option.none, Option.none⟩,
   claim3_installer_idempotent.2.2 true ⟨[("goto", Method.base 0)], [], []⟩
     ⟨by simp [classNotDouble, notDouble], by simp [classNotDouble],
      by simp [classNotDouble]⟩⟩

/-- C4: installation never raises: with either calling-convention variant
of the library absent the import failure is caught, the call completes,
nothing is installed for the missing variant, and operations absent from a
class are skipped (the patched class has exactly the original attribute
names). -/
theorem claim4_install_never_raises (env : Env) :
    patch_playwrightE env = .ok (patch_playwright env)
    ∧ (env.asyncApi = Option.none → (patch_playwright env).asyncApi = Option.none)
    ∧ (env.syncApi = Option.none → (patch_playwright env).syncApi = Option.none)
    ∧ (env.patched = false → env.asyncApi = Option.none → env.syncApi = Option.none →
        patch_playwright env = { patched := true, asyncApi := Option.none,
                                 syncApi := Option.none })
    ∧ (∀ (ia : Bool) (cat : String) (tbl : List (String × TitleRule)) (c : PWClass),
        (patchTable ia cat tbl c).map Prod.fst = c.map Prod.fst) := by
  obtain ⟨p, oa, os⟩ := env
  refine ⟨?_, ?_, ?_, ?_, fun ia cat tbl c => keys_patchTable ia cat tbl c⟩
  · cases p <;> cases oa <;> cases os <;> rfl
  · intro h
    cases p <;> simp_all [patch_playwright]
  · intro h
    cases p <;> simp_all [patch_playwright]
  · intro hp ha hs
    simp_all [patch_playwright]

/-- C4 witness: installing with the library entirely absent succeeds and
installs nothing. -/
theorem claim4_witness :
    patch_playwrightE ⟨false, Option.none, Option.none⟩ =
      .ok (patch_playwright ⟨false, Option.none, Option.none⟩)
    ∧ (patch_playwright ⟨false, Option.none, Option.none⟩).asyncApi = Option.none :=
  ⟨(claim4_install_never_raises ⟨false, Option.none, Option.none⟩).1,
   (claim4_install_never_raises ⟨false, Option.none, Option.none⟩).2.1 rfl⟩

/-- C8 counterexample: the makereport hook emits a record with event kind
`onStepEnd` whose step mapping has no `category` key at all, refuting the
claim that every `onStepEnd` record carries a category from the fixed
vocabulary. -/
theorem claim8_counterexample :
    ((pytest_runtest_makereport ⟨"setup", 5, some "boom"⟩ ⟨0, [], []⟩).events.getD 0
        []).lookup "event" = some (PyValue.vStr "onStepEnd")
    ∧ (pytest_runtest_makereport ⟨"setup", 5, some "boom"⟩ ⟨0, [], []⟩).events.length = 1
    ∧ stepLookup ((pytest_runtest_makereport ⟨"setup", 5, some "boom"⟩
        ⟨0, [], []⟩).events.getD 0 []) "category" = Option.none
    ∧ stepLookup ((pytest_runtest_makereport ⟨"setup", 5, some "boom"⟩
        ⟨0, [], []⟩).events.getD 0 []) "title" = some (PyValue.vStr "setup") :=
  ⟨rfl, rfl, rfl, rfl⟩

/-- C8 (amended): every `onStepEnd` record emitted through the step
instrumentation path (`JSONReporter.on_step_end`) carries `step.title`
(string), `step.category` (the category passed, always one of the four the
installer uses) and `step.duration` (number); installation only ever wraps
with categories from that vocabulary; but `onStepEnd` records emitted by
the makereport hook carry no category. -/
theorem claim8_step_end_fields_amended :
    (∀ (title cat : String) (dur : ℚ) (err : Option String) (st : ReporterState),
      cat ∈ allowedCategories →
      (on_step_end title cat dur err st).events =
        st.events ++ [stepEndRecord st.clock title cat dur err]
      ∧ stepLookup (stepEndRecord st.clock title cat dur err) "title" =
          some (PyValue.vStr title)
      ∧ stepLookup (stepEndRecord st.clock title cat dur err) "category" =
          some (PyValue.vStr cat)
      ∧ stepLookup (stepEndRecord st.clock title cat dur err) "duration" =
          some (PyValue.vNum dur))
    ∧ (∀ (ia : Bool) (a : Apis), apisCatsOk a → apisCatsOk (patchApis ia a)) := by
  constructor
  · intro title cat dur err st _
    exact ⟨by rw [on_step_end_eq], rfl, rfl, rfl⟩
  · intro ia a
    obtain ⟨pg, lc, asrt⟩ := a
    rintro ⟨hp, hl, hs⟩
    have hcat : ∀ (specs : List (String × List (String × TitleRule))),
        (∀ sp ∈ specs, sp.1 ∈ allowedCategories) →
        ∀ sp ∈ specs, ∀ m, is_wrapped m = false → catsOk m = true →
        catsOk (wrapMethod ia sp.1 m) = true := by
      intro specs hspecs sp hsp m _ hm
      simp [catsOk, wrapMethod, hspecs sp hsp, hm]
    exact ⟨patchTables_pred ia pageSpecs
             (hcat pageSpecs (by simp [pageSpecs, allowedCategories])) pg hp,
           patchTables_pred ia locatorSpecs
             (hcat locatorSpecs (by simp [locatorSpecs, allowedCategories])) lc hl,
           patchTables_pred ia assertionSpecs
             (hcat assertionSpecs (by simp [assertionSpecs, allowedCategories]))
             asrt hs⟩

/-- C8 witness: the amended theorem at the category `action` and at a class
holding one unwrapped `goto`. -/
theorem claim8_witness :
    "action" ∈ allowedCategories
    ∧ stepLookup (stepEndRecord 0 "t" "action" 3 Option.none) "category" =
        some (PyValue.vStr "action")
    ∧ apisCatsOk (patchApis true ⟨[("goto", Method.base 0)], [], []⟩) :=
  ⟨by decide,
   (claim8_step_end_fields_amended.1 "t" "action" 3 Option.none ⟨0, [], []⟩
     (by decide)).2.2.1,
   claim8_step_end_fields_amended.2 true ⟨[("goto", Method.base 0)], [], []⟩
     ⟨by simp [classCatsOk, catsOk], by simp [classCatsOk], by simp [classCatsOk]⟩⟩

/-- C9 counterexample: `wrap_sync_method` itself never refuses: applied to
a callable that already carries the wrapped marker it returns a new,
different wrapper instead of the input unchanged. -/
theorem claim9_counterexample :
    is_wrapped (Method.wrapped true "action" (Method.base 0)) = true
    ∧ wrapMethod true "action" (Method.wrapped true "action" (Method.base 0)) ≠
        Method.wrapped true "action" (Method.base 0) :=
  ⟨rfl, by decide⟩

/-- C9 (amended): every callable `wrap` produces carries the wrapped
marker, and the refusal to wrap an already wrapped callable lives at the
installation sites: the patch loops test `is_wrapped` first and leave a
marked operation untouched. -/
theorem claim9_wrap_marker_amended :
    (∀ (ia : Bool) (cat : String) (m : Method), is_wrapped (wrapMethod ia cat m) = true)
    ∧ (∀ (ia : Bool) (cat : String) (tbl : List (String × TitleRule)) (c : PWClass)
        (n : String) (m : Method), c.lookup n = some m → is_wrapped m = true →
        (patchTable ia cat tbl c).lookup n = some m) :=
  ⟨fun _ _ _ => rfl,
   fun ia cat tbl c n m h hw => patchTable_keeps_wrapped ia cat tbl c n m h hw⟩

/-- C9 witness: the amended theorem at a concrete wrapped `click`. -/
theorem claim9_witness :
    is_wrapped (wrapMethod false "navigation" (Method.base 1)) = true
    ∧ (patchTable false "action" locatorMethodsAction
        [("click", Method.wrapped false "action" (Method.base 7))]).lookup "click" =
      some (Method.wrapped false "action" (Method.base 7)) :=
  ⟨claim9_wrap_marker_amended.1 false "navigation" (Method.base 1),
   claim9_wrap_marker_amended.2 false "action" locatorMethodsAction
     [("click", Method.wrapped false "action" (Method.base 7))] "click"
     (Method.wrapped false "action" (Method.base 7)) rfl rfl⟩

end PwReporter
